import Mathlib

/-!
Shallow embedding of `goqueue` (`src/queue.go`): a mutex-protected FIFO
queue (`Queue`) with parked producer waiters (`putters`) and parked
consumer waiters (`getters`).

Modelling choices, all read off the Go source:
* A waiter (`waiter chan interface{}` wrapped in a `*list.Element`) is
  identified by a `Nat` id, allocated from a counter `nextId`; the three
  `container/list` lists become Lean lists of items / waiter ids.
* An item stored in `q.items` is an `interface{}` value: either an
  ordinary payload (`Elem.val`) or — reachable through `q.put(e)` on
  line 195 of the source — a `*list.Element` holding a waiter
  (`Elem.waiterRef`).
* A send of a value on a getter's channel (`w <- val`) is logged in
  `sent`; a wake of a putter (`w <- true`) is logged in `woken`.
* The single mutex is a `Bool` passed alongside the state: a public
  operation invoked while the lock is held blocks forever, which the
  sequential model renders as `none`; operations return the lock state
  they leave behind (`q.mutex.Lock()` / `Unlock()` as in the source —
  note `Put`'s full/no-wait branch returns without unlocking).
* The blocking paths of `Get`/`Put` are split into the locked phase
  (`getLocked`/`putLocked`), which either completes or parks a fresh
  waiter, and the resume step after the wait (`getResume`/`putResume`);
  the assembled `Get`/`Put` take an oracle describing the outcome of
  the wait (signalled with a value / signalled / timed out).
* `timeout` is the Go `float64` seconds argument, modelled as `ℚ`;
  `time.Duration(timeout) * time.Second` truncates toward zero to an
  integer number of nanoseconds (`goWaitDurationNs`).
-/

namespace GoQueue

/-- An `interface{}` value stored in `q.items`: a payload, or a
`*list.Element` wrapping a waiter channel (what `q.put(e)` stores). -/
inductive Elem (α : Type) where
  | val (a : α)
  | waiterRef (id : Nat)
deriving DecidableEq, Repr

/-- The fields of `Queue` other than the mutex: `maxSize`, `items`,
`putters`, `getters`, with a fresh-id counter for waiter allocation and
logs of channel sends (`sent` to getters, `woken` for putters). -/
structure QState (α : Type) where
  maxSize : Int
  items   : List (Elem α)
  putters : List Nat
  getters : List Nat
  nextId  : Nat
  sent    : List (Nat × Elem α)
  woken   : List Nat
deriving DecidableEq, Repr

variable {α : Type}

/-- `q.size()`: `q.items.Len()`. -/
def size (s : QState α) : Nat := s.items.length

/-- `q.isempty()`: `q.size() == 0`. -/
def isempty (s : QState α) : Bool := size s == 0

/-- `q.isfull()`: `q.maxSize > 0 && q.maxSize <= q.size()`. -/
def isfull (s : QState α) : Bool :=
  decide (0 < s.maxSize) && decide (s.maxSize ≤ (size s : Int))

/-- `q.get()`: pop the front of `q.items`. (On an empty list the Go code
would dereference a nil `*list.Element`; every call site guards on
non-emptiness, so the `[]` branch is dead.) -/
def qget (s : QState α) : Elem α × QState α :=
  match s.items with
  | [] => (Elem.waiterRef 0, s)
  | v :: rest => (v, { s with items := rest })

/-- `q.put(val)`: append to the back of `q.items`. -/
def qput (v : Elem α) (s : QState α) : QState α :=
  { s with items := s.items ++ [v] }

/-- `q.newPutter()`: allocate a waiter and push it at the back of
`q.putters`; returns its id. -/
def newPutter (s : QState α) : Nat × QState α :=
  (s.nextId, { s with putters := s.putters ++ [s.nextId], nextId := s.nextId + 1 })

/-- `q.newGetter()`: allocate a waiter and push it at the back of
`q.getters`; returns its id. -/
def newGetter (s : QState α) : Nat × QState α :=
  (s.nextId, { s with getters := s.getters ++ [s.nextId], nextId := s.nextId + 1 })

/-- `q.notifyPutter(getter)`: remove `getter` from `q.getters` when
non-nil; then, if any putter is parked, pop the oldest and send `true`
on its channel (logged in `woken`). -/
def notifyPutter (getter : Option Nat) (s : QState α) : Bool × QState α :=
  let s1 := match getter with
    | some g => { s with getters := s.getters.erase g }
    | none => s
  match s1.putters with
  | [] => (false, s1)
  | p :: rest => (true, { s1 with putters := rest, woken := s1.woken ++ [p] })

/-- `q.notifyGetter(putter, val)`: remove `putter` from `q.putters` when
non-nil; then, if any getter is parked, pop the oldest and send `val` on
its channel (logged in `sent`). -/
def notifyGetter (putter : Option Nat) (v : Elem α) (s : QState α) : Bool × QState α :=
  let s1 := match putter with
    | some p => { s with putters := s.putters.erase p }
    | none => s
  match s1.getters with
  | [] => (false, s1)
  | g :: rest => (true, { s1 with getters := rest, sent := s1.sent ++ [(g, v)] })

/-- Body of the first `clearPending` loop
(`for !q.isfull() && q.putters.Len() != 0 { q.notifyPutter(nil) }`),
with fuel: each iteration removes one putter, so `s.putters.length`
steps suffice. -/
def clearPuttersFuel : Nat → QState α → QState α
  | 0, s => s
  | n + 1, s =>
    if isfull s = false ∧ s.putters ≠ [] then
      clearPuttersFuel n (notifyPutter none s).2
    else s

/-- The first `clearPending` loop, run to completion. -/
def clearPuttersLoop (s : QState α) : QState α :=
  clearPuttersFuel s.putters.length s

/-- Body of the second `clearPending` loop
(`for !q.isempty() && q.getters.Len() != 0 { v := q.get(); q.notifyGetter(nil, v) }`),
with fuel: each iteration removes one item, so `s.items.length` steps
suffice. -/
def clearGettersFuel : Nat → QState α → QState α
  | 0, s => s
  | n + 1, s =>
    if isempty s = false ∧ s.getters ≠ [] then
      let p := qget s
      clearGettersFuel n (notifyGetter none p.1 p.2).2
    else s

/-- The second `clearPending` loop, run to completion. -/
def clearGettersLoop (s : QState α) : QState α :=
  clearGettersFuel s.items.length s

/-- `q.clearPending()`: the putter loop, then the getter loop. -/
def clearPending (s : QState α) : QState α :=
  clearGettersLoop (clearPuttersLoop s)

/-- Result of `Get`: `(v, nil)` or `(nil, ErrEmptyQueue)`. -/
inductive GetResult (α : Type) where
  | ok (v : Elem α)
  | emptyErr
deriving DecidableEq, Repr

/-- Result of `Put`: `nil` or `ErrFullQueue`. -/
inductive PutResult where
  | ok
  | fullErr
deriving DecidableEq, Repr

/-- Outcome of the locked phase of `Put`: completed (with the lock state
left behind), or parked as a producer waiter with the lock released. -/
inductive PutPhase (α : Type) where
  | done (r : PutResult) (lockHeld : Bool) (s : QState α)
  | parked (e : Nat) (s : QState α)
deriving DecidableEq, Repr

/-- Outcome of the locked phase of `Get`. -/
inductive GetPhase (α : Type) where
  | done (r : GetResult α) (lockHeld : Bool) (s : QState α)
  | parked (e : Nat) (s : QState α)
deriving DecidableEq, Repr

/-- Lines 165–181 of `Put`, from after `q.mutex.Lock()` to either a
`return` or the `q.mutex.Unlock()` preceding the wait. The full/no-wait
branch (`if timeout < 0.0 && isfull { return ErrFullQueue }`) returns
with the mutex still held — the source has no unlock there. -/
def putLocked (v : α) (timeout : ℚ) (s : QState α) : PutPhase α :=
  let s1 := clearPending s
  let full := isfull s1
  if timeout < 0 ∧ full = true then
    PutPhase.done PutResult.fullErr true s1
  else if full = false then
    let r := notifyGetter none (Elem.val v) s1
    if r.1 then PutPhase.done PutResult.ok false r.2
    else PutPhase.done PutResult.ok false (qput (Elem.val v) r.2)
  else
    let e := newPutter s1
    PutPhase.parked e.1 e.2

/-- Lines 193–198 of `Put`: after the parked producer waiter `e` is
signalled, re-acquire the lock; `if !q.notifyGetter(e, val) { q.put(e) }` —
the source pushes the waiter's `*list.Element`, not `val`. -/
def putResume (e : Nat) (v : α) (lockHeld : Bool) (s : QState α) :
    Option (Bool × QState α) :=
  if lockHeld then none
  else
    let r := notifyGetter (some e) (Elem.val v) s
    if r.1 then some (false, r.2)
    else some (false, qput (Elem.waiterRef e) r.2)

/-- `q.Put(val, timeout)`. `signaled` is the oracle for the wait on the
parked waiter's channel: `true` means the channel fired before any
deadline, `false` means it never fired within the wait. A call made
while the lock is held blocks forever (`none`), as does an indefinite
wait that is never signalled. -/
def Put (v : α) (timeout : ℚ) (signaled : Bool) (lockHeld : Bool) (s : QState α) :
    Option (PutResult × Bool × QState α) :=
  if lockHeld then none
  else
    match putLocked v timeout s with
    | PutPhase.done r lk s1 => some (r, lk, s1)
    | PutPhase.parked e s1 =>
      if timeout = 0 then
        if signaled then
          match putResume e v false s1 with
          | some p => some (PutResult.ok, p.1, p.2)
          | none => none
        else none
      else
        if signaled then
          match putResume e v false s1 with
          | some p => some (PutResult.ok, p.1, p.2)
          | none => none
        else some (PutResult.fullErr, false, s1)

/-- Lines 118–134 of `Get`, from after `q.mutex.Lock()` to either a
`return` (lock released by the deferred unlock) or the
`q.mutex.Unlock()` preceding the wait. -/
def getLocked (timeout : ℚ) (s : QState α) : GetPhase α :=
  let s1 := clearPending s
  let emp := isempty s1
  if timeout < 0 ∧ emp = true then
    GetPhase.done GetResult.emptyErr false s1
  else if emp = false then
    let p := qget s1
    let r := notifyPutter none p.2
    GetPhase.done (GetResult.ok p.1) false r.2
  else
    let e := newGetter s1
    GetPhase.parked e.1 e.2

/-- Lines 147–149 of `Get`: after the parked consumer waiter `e`
receives a value, re-acquire the lock, `q.notifyPutter(e)`, unlock. -/
def getResume (e : Nat) (lockHeld : Bool) (s : QState α) :
    Option (Bool × QState α) :=
  if lockHeld then none
  else some (false, (notifyPutter (some e) s).2)

/-- `q.Get(timeout)`. `outcome` is the oracle for the wait on the parked
waiter's channel: `some v` means the channel delivered `v` before any
deadline, `none` means it never did within the wait. On expiry of a
timed wait the source returns `ErrEmptyQueue` directly — without
re-locking and without removing the waiter from `q.getters`. -/
def Get (timeout : ℚ) (outcome : Option (Elem α)) (lockHeld : Bool) (s : QState α) :
    Option (GetResult α × Bool × QState α) :=
  if lockHeld then none
  else
    match getLocked timeout s with
    | GetPhase.done r lk s1 => some (r, lk, s1)
    | GetPhase.parked e s1 =>
      if timeout = 0 then
        match outcome with
        | some v =>
          match getResume e false s1 with
          | some p => some (GetResult.ok v, p.1, p.2)
          | none => none
        | none => none
      else
        match outcome with
        | some v =>
          match getResume e false s1 with
          | some p => some (GetResult.ok v, p.1, p.2)
          | none => none
        | none => some (GetResult.emptyErr, false, s1)

/-- `q.GetNoWait()`: `q.Get(-1)`. -/
def GetNoWait (lockHeld : Bool) (s : QState α) :
    Option (GetResult α × Bool × QState α) :=
  Get (-1) none lockHeld s

/-- `q.PutNoWait(val)`: `q.Put(val, -1)`. -/
def PutNoWait (v : α) (lockHeld : Bool) (s : QState α) :
    Option (PutResult × Bool × QState α) :=
  Put v (-1) false lockHeld s

/-- `q.Size()`: lock, read `q.size()`, unlock. -/
def Size (lockHeld : Bool) (s : QState α) : Option Nat :=
  if lockHeld then none else some (size s)

/-- `q.IsEmpty()`: lock, read `q.isempty()`, unlock. -/
def IsEmpty (lockHeld : Bool) (s : QState α) : Option Bool :=
  if lockHeld then none else some (isempty s)

/-- `q.IsFull()`: lock, read `q.isfull()`, unlock. -/
def IsFull (lockHeld : Bool) (s : QState α) : Option Bool :=
  if lockHeld then none else some (isfull s)

/-- `New(maxSize)`: empty item and waiter lists. -/
def New (α : Type) (maxSize : Int) : QState α :=
  ⟨maxSize, [], [], [], 0, [], []⟩

/-- Truncation of a rational toward zero, modelling Go's conversion of a
`float64` to the integer type `time.Duration`. -/
def ratTrunc (q : ℚ) : Int :=
  if 0 ≤ q then ⌊q⌋ else ⌈q⌉

/-- `time.Duration(timeout) * time.Second` (lines 143 and 188): the
wait deadline, in nanoseconds, derived from the `timeout` argument. -/
def goWaitDurationNs (timeout : ℚ) : Int :=
  ratTrunc timeout * 1000000000

/-- The wait duration the specification asks for: `timeout` seconds,
i.e. `timeout * 10^9` nanoseconds. Written from the spec's words, to be
compared with `goWaitDurationNs`. -/
def specWaitDurationNs (timeout : ℚ) : ℚ :=
  timeout * 1000000000

/-- Run `q.PutNoWait` once per value, left to right, requiring every
call to succeed. -/
def putAllNoWait : List α → Bool → QState α → Option (Bool × QState α)
  | [], lk, s => some (lk, s)
  | v :: vs, lk, s =>
    match PutNoWait v lk s with
    | some (PutResult.ok, lk1, s1) => putAllNoWait vs lk1 s1
    | _ => none

/-- Run `q.GetNoWait` `n` times, requiring every call to succeed, and
collect the returned values in order. -/
def getAllNoWait : Nat → Bool → QState α → Option (List (Elem α) × Bool × QState α)
  | 0, lk, s => some ([], lk, s)
  | n + 1, lk, s =>
    match GetNoWait lk s with
    | some (GetResult.ok v, lk1, s1) =>
      match getAllNoWait n lk1 s1 with
      | some (ws, lk2, s2) => some (v :: ws, lk2, s2)
      | none => none
    | _ => none

/-- Put every value of `vs` into a fresh queue of capacity `m`, then
get `vs.length` values back. -/
def roundTrip (vs : List α) (m : Int) : Option (List (Elem α) × Bool × QState α) :=
  match putAllNoWait vs false (New α m) with
  | some (lk, s) => getAllNoWait vs.length lk s
  | none => none

end GoQueue

namespace GoQueue

/-! ## Concrete states used in the trace theorems -/

/-- A full `maxSize = 1` queue holding the single item `5`. -/
def fullOne : QState Int := ⟨1, [Elem.val 5], [], [], 0, [], []⟩

/-- `fullOne` after `Put 7` with `timeout = 0` has parked producer
waiter `0`. -/
def fullOneParked : QState Int := ⟨1, [Elem.val 5], [0], [], 1, [], []⟩

/-- `fullOneParked` after a no-wait `Get` took item `5` and signalled
the parked producer waiter `0`. -/
def afterHandback : QState Int := ⟨1, [], [], [], 1, [], [0]⟩

/-- `afterHandback` after the woken producer re-enqueued: the source
pushed the waiter's `*list.Element` onto `items`. -/
def afterRequeue : QState Int := ⟨1, [Elem.waiterRef 0], [], [], 1, [], [0]⟩

/-- An empty `maxSize = 1` queue with timed-out consumer waiter `0`
still parked in `getters`. -/
def emptyStaleGetter : QState Int := ⟨1, [], [], [0], 1, [], []⟩

/-- `emptyStaleGetter` after `Put 9`: the value was sent to the stale
waiter's channel and `items` stayed empty. -/
def afterLostPut : QState Int := ⟨1, [], [], [], 1, [(0, Elem.val 9)], []⟩

/-- A full `maxSize = 1` queue with timed-out producer waiter `0`
still parked in `putters`. -/
def fullStalePutter : QState Int := ⟨1, [Elem.val 5], [0], [], 1, [], []⟩

/-- Reconciliation counterexample state: `maxSize = 1`, one stored
item, one parked producer (`1`), one parked consumer (`2`). -/
def mixedPending : QState Int := ⟨1, [Elem.val 0], [1], [2], 3, [], []⟩

/-! ## C1 -/

/-- Claim C1: the spec requires the woken producer, on `notifyGetter`
failure, to append its **value**; the source (`q.put(e)`, line 195)
appends the waiter's `*list.Element` instead, so the subsequent `Get`
returns the waiter handle and not the value `7`. Trace: `Put 7` with
indefinite timeout parks on the full queue; a no-wait `Get` takes `5`
and wakes the parked producer; the woken producer finds no waiting
consumer and re-enqueues; the next `Get` then yields the handle. -/
theorem put_wake_requeue_stores_waiter_handle :
    putLocked (7 : Int) 0 fullOne = PutPhase.parked 0 fullOneParked
    ∧ Get (-1) none false fullOneParked =
        some (GetResult.ok (Elem.val 5), false, afterHandback)
    ∧ afterHandback.woken = [0]
    ∧ putResume 0 (7 : Int) false afterHandback = some (false, afterRequeue)
    ∧ afterRequeue.items = [Elem.waiterRef 0]
    ∧ GetNoWait false afterRequeue =
        some (GetResult.ok (Elem.waiterRef 0), false, ⟨1, [], [], [], 1, [], [0]⟩)
    ∧ Elem.waiterRef 0 ≠ Elem.val (7 : Int) := by
  refine ⟨by decide, by decide, by decide, by decide, by decide, by decide, by decide⟩

/-! ## C2 -/

/-- Claim C2: a timed `Get` that expires returns `ErrEmptyQueue` but
leaves its waiter in `getters` (the source returns at line 144 without
removing it), so a later `Put` sends its value to the stale waiter and
the value is lost; symmetrically a timed `Put` that expires leaves its
waiter in `putters` (line 189). This refutes the claim that the
expiring call's waiter is removed from its pending list. -/
theorem timed_wait_expiry_leaves_waiter :
    Get 2 none false (New Int 1) =
        some (GetResult.emptyErr, false, emptyStaleGetter)
    ∧ emptyStaleGetter.getters = [0]
    ∧ Put (9 : Int) (-1) false false emptyStaleGetter =
        some (PutResult.ok, false, afterLostPut)
    ∧ afterLostPut.sent = [(0, Elem.val 9)]
    ∧ afterLostPut.items = []
    ∧ GetNoWait false afterLostPut =
        some (GetResult.emptyErr, false, afterLostPut)
    ∧ Put (7 : Int) 2 false false fullOne =
        some (PutResult.fullErr, false, fullStalePutter)
    ∧ fullStalePutter.putters = [0] := by
  refine ⟨by decide, by decide, by decide, by decide, by decide, by decide, by decide,
    by decide⟩

/-! ## C3 -/

/-- Claim C3: a no-wait `Put` on a full queue fails immediately with
`ErrFullQueue` and leaves `items`/`putters`/`getters` as reconciliation
left them, but the source returns at line 169 without unlocking, so the
mutex stays held and every subsequent operation deadlocks. This refutes
the "releases the lock, so subsequent operations can proceed" part. -/
theorem put_nowait_full_keeps_lock :
    PutNoWait (7 : Int) false fullOne = some (PutResult.fullErr, true, fullOne)
    ∧ GetNoWait true fullOne = none
    ∧ PutNoWait (8 : Int) true fullOne = none
    ∧ Size true fullOne = none := by
  refine ⟨by decide, by decide, by decide, by decide⟩

/-! ## C5 -/

/-- Claim C5: the wait deadline the source derives from `timeout = 0.1`
(`time.Duration(timeout) * time.Second`, lines 143/188) is `0`
nanoseconds — the `float64` is truncated to a whole number of seconds
before scaling — while the spec's wait of `0.1` seconds is `10^8`
nanoseconds; the timed wait therefore expires immediately instead of
after approximately 0.1 time units. -/
theorem fractional_timeout_truncated_to_zero :
    goWaitDurationNs (1 / 10) = 0
    ∧ specWaitDurationNs (1 / 10) = 100000000
    ∧ goWaitDurationNs (5 / 2) = goWaitDurationNs 2 := by
  refine ⟨by norm_num [goWaitDurationNs, ratTrunc],
    by norm_num [specWaitDurationNs],
    by norm_num [goWaitDurationNs, ratTrunc]⟩

/-! ## C6 -/

/-- Claim C6: with `maxSize = 1` the first no-wait `Put` succeeds and
the second fails with `ErrFullQueue` as claimed, but the failing `Put`
returns with the mutex still held (line 169 has no unlock), so the
"single successful Get" the claim promises can never proceed — it
blocks forever instead of returning `5`. -/
theorem capacity_bound_blocked_by_held_lock :
    PutNoWait (5 : Int) false (New Int 1) = some (PutResult.ok, false, fullOne)
    ∧ PutNoWait (6 : Int) false fullOne = some (PutResult.fullErr, true, fullOne)
    ∧ Get (-1) none true fullOne = none
    ∧ Get 0 (some (Elem.val 5)) true fullOne = none := by
  refine ⟨by decide, by decide, by decide, by decide⟩

/-! ## C4: counterexample -/

/-- Claim C4 counterexample: from the state with one stored item, one
parked producer and one parked consumer on a `maxSize = 1` queue,
`clearPending` hands the stored item to the consumer and stops, leaving
the producer parked while the queue is no longer full — the claimed
"no trivially satisfiable waiter" property fails. -/
theorem clearPending_leaves_satisfiable_putter :
    clearPending mixedPending = ⟨1, [], [1], [], 3, [(2, Elem.val 0)], []⟩
    ∧ isfull (clearPending mixedPending) = false
    ∧ (clearPending mixedPending).putters ≠ [] := by
  refine ⟨by decide, by decide, by decide⟩

/-! ## Helper lemmas about the reconciliation loops -/

variable {α : Type}

theorem notifyPutter_none_cons (s : QState α) (p : Nat) (rest : List Nat)
    (h : s.putters = p :: rest) :
    (notifyPutter none s).2 = { s with putters := rest, woken := s.woken ++ [p] } := by
  simp [notifyPutter, h]

theorem notifyPutter_none_nil (s : QState α) (h : s.putters = []) :
    (notifyPutter none s).2 = s := by
  simp [notifyPutter, h]

theorem notifyGetter_none_cons (s : QState α) (v : Elem α) (g : Nat) (grest : List Nat)
    (h : s.getters = g :: grest) :
    (notifyGetter none v s).2 = { s with getters := grest, sent := s.sent ++ [(g, v)] } := by
  simp [notifyGetter, h]

theorem notifyGetter_none_nil (s : QState α) (v : Elem α) (h : s.getters = []) :
    (notifyGetter none v s).2 = s := by
  simp [notifyGetter, h]

theorem qget_cons (s : QState α) (v : Elem α) (rest : List (Elem α))
    (h : s.items = v :: rest) :
    qget s = (v, { s with items := rest }) := by
  simp [qget, h]

/-- The putter loop never touches `items`, `getters` or `maxSize`. -/
theorem clearPuttersFuel_pres (n : Nat) : ∀ s : QState α,
    (clearPuttersFuel n s).items = s.items
    ∧ (clearPuttersFuel n s).getters = s.getters
    ∧ (clearPuttersFuel n s).maxSize = s.maxSize := by
  induction n with
  | zero => intro s; exact ⟨rfl, rfl, rfl⟩
  | succ n ih =>
    intro s
    simp only [clearPuttersFuel]
    by_cases hc : isfull s = false ∧ s.putters ≠ []
    · rw [if_pos hc]
      rcases List.exists_cons_of_ne_nil hc.2 with ⟨p, rest, hp⟩
      rw [notifyPutter_none_cons s p rest hp]
      simpa using ih { s with putters := rest, woken := s.woken ++ [p] }
    · rw [if_neg hc]
      exact ⟨rfl, rfl, rfl⟩

/-- Postcondition of the putter loop: its guard has failed. -/
theorem clearPuttersFuel_post (n : Nat) : ∀ s : QState α, s.putters.length ≤ n →
    isfull (clearPuttersFuel n s) = true ∨ (clearPuttersFuel n s).putters = [] := by
  induction n with
  | zero =>
    intro s h
    right
    exact List.eq_nil_of_length_eq_zero (Nat.le_zero.mp h)
  | succ n ih =>
    intro s h
    simp only [clearPuttersFuel]
    by_cases hc : isfull s = false ∧ s.putters ≠ []
    · rw [if_pos hc]
      rcases List.exists_cons_of_ne_nil hc.2 with ⟨p, rest, hp⟩
      rw [notifyPutter_none_cons s p rest hp]
      apply ih
      rw [hp] at h
      simpa using Nat.le_of_succ_le_succ h
    · rw [if_neg hc]
      rcases not_and_or.mp hc with h1 | h2
      · left
        cases hb : isfull s
        · exact absurd hb h1
        · rfl
      · right
        exact not_not.mp h2

/-- The getter loop is the identity once no consumer waiter is parked. -/
theorem clearGettersFuel_getters_nil (n : Nat) (s : QState α) (h : s.getters = []) :
    clearGettersFuel n s = s := by
  cases n with
  | zero => rfl
  | succ n => simp [clearGettersFuel, h]

/-- The getter loop never touches `putters` or `maxSize`. -/
theorem clearGettersFuel_pres (n : Nat) : ∀ s : QState α,
    (clearGettersFuel n s).putters = s.putters
    ∧ (clearGettersFuel n s).maxSize = s.maxSize := by
  induction n with
  | zero => intro s; exact ⟨rfl, rfl⟩
  | succ n ih =>
    intro s
    simp only [clearGettersFuel]
    by_cases hc : isempty s = false ∧ s.getters ≠ []
    · rw [if_pos hc]
      have hi : s.items ≠ [] := by
        intro hnil
        rw [isempty, size, hnil] at hc
        simp at hc
      rcases List.exists_cons_of_ne_nil hi with ⟨v, rest, hv⟩
      rcases List.exists_cons_of_ne_nil hc.2 with ⟨g, grest, hg⟩
      rw [qget_cons s v rest hv]
      have hg2 : (QState.mk s.maxSize rest s.putters s.getters s.nextId s.sent s.woken).getters
          = g :: grest := hg
      rw [notifyGetter_none_cons _ v g grest hg2]
      simpa using ih _
    · rw [if_neg hc]
      exact ⟨rfl, rfl⟩

/-- Postcondition of the getter loop: its guard has failed. -/
theorem clearGettersFuel_post (n : Nat) : ∀ s : QState α, s.items.length ≤ n →
    isempty (clearGettersFuel n s) = true ∨ (clearGettersFuel n s).getters = [] := by
  induction n with
  | zero =>
    intro s h
    left
    have : s.items = [] := List.eq_nil_of_length_eq_zero (Nat.le_zero.mp h)
    simp [clearGettersFuel, isempty, size, this]
  | succ n ih =>
    intro s h
    simp only [clearGettersFuel]
    by_cases hc : isempty s = false ∧ s.getters ≠ []
    · rw [if_pos hc]
      have hi : s.items ≠ [] := by
        intro hnil
        rw [isempty, size, hnil] at hc
        simp at hc
      rcases List.exists_cons_of_ne_nil hi with ⟨v, rest, hv⟩
      rcases List.exists_cons_of_ne_nil hc.2 with ⟨g, grest, hg⟩
      rw [qget_cons s v rest hv]
      have hg2 : (QState.mk s.maxSize rest s.putters s.getters s.nextId s.sent s.woken).getters
          = g :: grest := hg
      rw [notifyGetter_none_cons _ v g grest hg2]
      apply ih
      rw [hv] at h
      simpa using Nat.le_of_succ_le_succ h
    · rw [if_neg hc]
      rcases not_and_or.mp hc with h1 | h2
      · left
        cases hb : isempty s
        · exact absurd hb h1
        · rfl
      · right
        exact not_not.mp h2

/-- After `clearPending`, no consumer waiter is trivially satisfiable. -/
theorem clearPending_post_getters (s : QState α) :
    isempty (clearPending s) = true ∨ (clearPending s).getters = [] := by
  unfold clearPending clearGettersLoop
  exact clearGettersFuel_post _ _ (le_refl _)

/-- When no consumer waiter was parked at entry, `clearPending` also
leaves no trivially satisfiable producer waiter. -/
theorem clearPending_post_putters (s : QState α) (h : s.getters = []) :
    isfull (clearPending s) = true ∨ (clearPending s).putters = [] := by
  have hg : (clearPuttersLoop s).getters = [] := by
    unfold clearPuttersLoop
    rw [(clearPuttersFuel_pres _ s).2.1]
    exact h
  unfold clearPending clearGettersLoop
  rw [clearGettersFuel_getters_nil _ _ hg]
  unfold clearPuttersLoop
  exact clearPuttersFuel_post _ _ (le_refl _)

/-- `clearPending` preserves `maxSize`. -/
theorem clearPending_maxSize (s : QState α) :
    (clearPending s).maxSize = s.maxSize := by
  unfold clearPending clearGettersLoop clearPuttersLoop
  rw [(clearGettersFuel_pres _ _).2, (clearPuttersFuel_pres _ _).2.2]

/-- `clearPending` is the identity on a state with no parked waiter. -/
theorem clearPending_idle (s : QState α) (hp : s.putters = []) (hg : s.getters = []) :
    clearPending s = s := by
  unfold clearPending clearPuttersLoop
  rw [hp]
  exact clearGettersFuel_getters_nil _ _ hg

/-! ## C4: amended claim -/

/-- Claim C4 (amended): after `clearPending` it is never the case that
the queue is non-empty while a consumer waiter is parked; and when no
consumer waiter was parked at entry, it is also not the case that the
queue is not full while a producer waiter is parked. (The unconditional
producer half fails on the code: the consumer loop can free capacity
and leave a producer parked.) -/
theorem clearPending_no_satisfiable_waiter (s : QState α) :
    ¬(isempty (clearPending s) = false ∧ (clearPending s).getters ≠ [])
    ∧ (s.getters = [] →
        ¬(isfull (clearPending s) = false ∧ (clearPending s).putters ≠ [])) := by
  constructor
  · rintro ⟨h1, h2⟩
    rcases clearPending_post_getters s with h | h
    · rw [h1] at h
      exact Bool.false_ne_true h
    · exact h2 h
  · intro hg
    rintro ⟨h1, h2⟩
    rcases clearPending_post_putters s hg with h | h
    · rw [h1] at h
      exact Bool.false_ne_true h
    · exact h2 h

/-- An idle-consumer state for the C4 witness: `maxSize = 1`, empty
storage, one parked producer, no parked consumer. -/
def idlePutterState : QState Int := ⟨1, [], [2], [], 3, [], []⟩

/-- Witness for the amended C4 claim at `idlePutterState`. -/
theorem clearPending_no_satisfiable_waiter_witness :
    ¬(isempty (clearPending idlePutterState) = false
        ∧ (clearPending idlePutterState).getters ≠ [])
    ∧ ¬(isfull (clearPending idlePutterState) = false
        ∧ (clearPending idlePutterState).putters ≠ []) :=
  ⟨(clearPending_no_satisfiable_waiter idlePutterState).1,
   (clearPending_no_satisfiable_waiter idlePutterState).2 rfl⟩

/-! ## Fast-path lemmas for the public operations -/

theorem notifyGetter_nil_eq (s : QState α) (v : Elem α) (h : s.getters = []) :
    notifyGetter none v s = (false, s) := by
  simp [notifyGetter, h]

theorem notifyGetter_cons_eq (s : QState α) (v : Elem α) (g : Nat) (grest : List Nat)
    (h : s.getters = g :: grest) :
    notifyGetter none v s = (true, { s with getters := grest, sent := s.sent ++ [(g, v)] }) := by
  simp [notifyGetter, h]

theorem notifyPutter_nil_eq (s : QState α) (h : s.putters = []) :
    notifyPutter none s = (false, s) := by
  simp [notifyPutter, h]

/-- On a not-full queue with no parked waiter, `Put` takes the fast
path and appends the value, for every timeout. -/
theorem put_fast (s : QState α) (v : α) (t : ℚ) (sig : Bool)
    (hp : s.putters = []) (hg : s.getters = []) (hf : isfull s = false) :
    Put v t sig false s = some (PutResult.ok, false, qput (Elem.val v) s) := by
  have hcp : clearPending s = s := clearPending_idle s hp hg
  have hng : notifyGetter none (Elem.val v) s = (false, s) := notifyGetter_nil_eq s _ hg
  simp only [Put, putLocked, hcp, hf, hng]
  simp

/-- On a non-empty queue with no parked waiter, `Get` takes the fast
path and returns the oldest item, for every timeout and oracle. -/
theorem get_fast (s : QState α) (t : ℚ) (oc : Option (Elem α))
    (hp : s.putters = []) (hg : s.getters = [])
    (v : Elem α) (rest : List (Elem α)) (hi : s.items = v :: rest) :
    Get t oc false s = some (GetResult.ok v, false, { s with items := rest }) := by
  have hcp : clearPending s = s := clearPending_idle s hp hg
  have hemp : isempty s = false := by simp [isempty, size, hi]
  have hqg : qget s = (v, { s with items := rest }) := qget_cons s v rest hi
  have hnp : notifyPutter none { s with items := rest } = (false, { s with items := rest }) :=
    notifyPutter_nil_eq _ (by simpa using hp)
  simp only [Get, getLocked, hcp, hemp, hqg, hnp]
  simp

/-- With no parked waiter and enough capacity, a run of no-wait `Put`s
appends all its values in order. -/
theorem putAll_idle : ∀ (vs : List α) (s : QState α), s.putters = [] → s.getters = [] →
    (s.maxSize ≤ 0 ∨ (s.items.length : Int) + vs.length ≤ s.maxSize) →
    putAllNoWait vs false s = some (false, { s with items := s.items ++ vs.map Elem.val }) := by
  intro vs
  induction vs with
  | nil =>
    intro s hp hg hcap
    simp [putAllNoWait]
  | cons v vs ih =>
    intro s hp hg hcap
    have hf : isfull s = false := by
      have hn : ¬(0 < s.maxSize ∧ s.maxSize ≤ (s.items.length : Int)) := by
        rcases hcap with h | h
        · omega
        · simp only [List.length_cons] at h
          push_cast at h
          omega
      simp only [isfull, size]
      simp only [Bool.and_eq_false_iff, decide_eq_false_iff_not]
      tauto
    simp only [putAllNoWait, PutNoWait, put_fast s v (-1) false hp hg hf]
    rw [ih (qput (Elem.val v) s) (by simp [qput, hp]) (by simp [qput, hg]) ?_]
    · simp [qput, List.append_assoc]
    · rcases hcap with h | h
      · left
        simpa [qput] using h
      · right
        simp only [qput, List.length_append]
        push_cast at h ⊢
        simp at h ⊢
        omega

/-- With no parked waiter, a run of no-wait `Get`s drains the stored
items in order. -/
theorem getAll_idle : ∀ (ws : List (Elem α)) (s : QState α), s.putters = [] →
    s.getters = [] → s.items = ws →
    getAllNoWait ws.length false s = some (ws, false, { s with items := [] }) := by
  intro ws
  induction ws with
  | nil =>
    intro s hp hg hi
    obtain ⟨m, items, ps, gs, nid, sent, wk⟩ := s
    simp only at hi
    subst hi
    simp [getAllNoWait]
  | cons w ws ih =>
    intro s hp hg hi
    simp only [List.length_cons, getAllNoWait, GetNoWait,
      get_fast s (-1) none hp hg w ws hi]
    rw [ih { s with items := ws } (by simpa using hp) (by simpa using hg) rfl]

/-! ## C7 -/

/-- Claim C7: putting `v1..vn` into a fresh otherwise-idle queue of
sufficient capacity and then getting `n` times returns `v1..vn` in
exactly that order, ending in the fresh-queue state again. -/
theorem fifo_roundtrip (vs : List α) (m : Int)
    (hcap : m = 0 ∨ (vs.length : Int) ≤ m) :
    roundTrip vs m = some (vs.map Elem.val, false, New α m) := by
  have hput := putAll_idle vs (New α m) rfl rfl ?_
  · unfold roundTrip
    rw [hput]
    have hget := getAll_idle (vs.map Elem.val)
      { New α m with items := [] ++ vs.map Elem.val } rfl rfl rfl
    rw [List.length_map] at hget
    simp only [New] at hput hget ⊢
    rw [hget]
  · rcases hcap with h | h
    · left
      simp [New, h]
    · right
      simpa [New] using h

/-- Witness for C7 at `vs = [1, 2, 3]`, `m = 5`. -/
theorem fifo_roundtrip_witness :
    roundTrip ([1, 2, 3] : List Int) 5 =
      some ([Elem.val 1, Elem.val 2, Elem.val 3], false, New Int 5) :=
  fifo_roundtrip [1, 2, 3] 5 (Or.inr (by decide))

/-! ## C8 -/

/-- Claim C8: on a reconciled, not-full queue, `Put` hands its value to
the oldest parked consumer waiter, leaving the stored items unchanged;
only when no consumer is parked is the value appended to storage. -/
theorem put_rendezvous (s : QState α) (v : α) (t : ℚ) (sig : Bool)
    (hcp : clearPending s = s) (hf : isfull s = false) :
    (∀ g grest, s.getters = g :: grest →
      Put v t sig false s =
        some (PutResult.ok, false,
          { s with getters := grest, sent := s.sent ++ [(g, Elem.val v)] }))
    ∧ (s.getters = [] →
      Put v t sig false s = some (PutResult.ok, false, qput (Elem.val v) s)) := by
  constructor
  · intro g grest hg
    have hng := notifyGetter_cons_eq s (Elem.val v) g grest hg
    simp only [Put, putLocked, hcp, hf, hng]
    simp
  · intro hg
    have hng := notifyGetter_nil_eq s (Elem.val v) hg
    simp only [Put, putLocked, hcp, hf, hng]
    simp

/-- A reconciled state with one parked consumer for the C8 witness. -/
def rendezvousState : QState Int := ⟨1, [], [], [3], 7, [], []⟩

/-- Witness for C8 at `rendezvousState`: the value `9` goes straight to
waiter `3` and `items` stays empty. -/
theorem put_rendezvous_witness :
    Put (9 : Int) (-1) false false rendezvousState =
      some (PutResult.ok, false, ⟨1, [], [], [], 7, [(3, Elem.val 9)], []⟩) :=
  (put_rendezvous rendezvousState 9 (-1) false (by decide) (by decide)).1 3 [] rfl

/-! ## C9 -/

/-- Claim C9: with `maxSize ≤ 0` the queue is never full — `IsFull`
returns `false` and a no-wait `Put` succeeds from every state. -/
theorem unbounded_never_full (s : QState α) (v : α) (hm : s.maxSize ≤ 0) :
    isfull s = false ∧ IsFull false s = some false
    ∧ ∃ s1, PutNoWait v false s = some (PutResult.ok, false, s1) := by
  have hfull : ∀ r : QState α, r.maxSize ≤ 0 → isfull r = false := by
    intro r h
    simp only [isfull, size]
    simp only [Bool.and_eq_false_iff, decide_eq_false_iff_not]
    left
    omega
  refine ⟨hfull s hm, by simp [IsFull, hfull s hm], ?_⟩
  have hcp : isfull (clearPending s) = false := by
    apply hfull
    rw [clearPending_maxSize]
    exact hm
  simp only [PutNoWait, Put, putLocked, hcp]
  rcases hng : notifyGetter none (Elem.val v) (clearPending s) with ⟨b, s2⟩
  cases b
  · exact ⟨qput (Elem.val v) s2, by simp [hng]⟩
  · exact ⟨s2, by simp [hng]⟩

/-- An unbounded-queue state holding two items for the C9 witness. -/
def unboundedState : QState Int := ⟨0, [Elem.val 1, Elem.val 2], [], [], 0, [], []⟩

/-- Witness for C9 at `unboundedState`. -/
theorem unbounded_never_full_witness :
    isfull unboundedState = false ∧ IsFull false unboundedState = some false
    ∧ ∃ s1, PutNoWait (7 : Int) false unboundedState = some (PutResult.ok, false, s1) :=
  unbounded_never_full unboundedState 7 (by decide)

/-! ## C10 -/

/-- Claim C10: a no-wait call fails only when unsatisfiable after
reconciliation — with the lock free, a negative-timeout `Get` on a
post-reconciliation non-empty queue returns the oldest stored item, and
a negative-timeout `Put` on a post-reconciliation not-full queue
succeeds; neither blocks. -/
theorem nowait_satisfiable (s : QState α) (v : α) (t : ℚ) (ht : t < 0) :
    (∀ w rest, (clearPending s).items = w :: rest →
      ∃ s1, Get t none false s = some (GetResult.ok w, false, s1))
    ∧ (isfull (clearPending s) = false →
      ∃ s1, Put v t false false s = some (PutResult.ok, false, s1)) := by
  constructor
  · intro w rest hi
    have hemp : isempty (clearPending s) = false := by simp [isempty, size, hi]
    have hqg := qget_cons (clearPending s) w rest hi
    refine ⟨(notifyPutter none { clearPending s with items := rest }).2, ?_⟩
    simp only [Get, getLocked, hemp, hqg]
    simp
  · intro hf
    simp only [Put, putLocked, hf]
    rcases hng : notifyGetter none (Elem.val v) (clearPending s) with ⟨b, s2⟩
    cases b
    · exact ⟨qput (Elem.val v) s2, by simp [hng]⟩
    · exact ⟨s2, by simp [hng]⟩

/-- A reconciled non-empty, not-full state for the C10 witness. -/
def nowaitState : QState Int := ⟨2, [Elem.val 4], [], [], 0, [], []⟩

/-- Witness for C10 at `nowaitState`. -/
theorem nowait_satisfiable_witness :
    (∃ s1, Get (-1) none false nowaitState =
      some (GetResult.ok (Elem.val 4), false, s1))
    ∧ (∃ s1, Put (9 : Int) (-1) false false nowaitState =
      some (PutResult.ok, false, s1)) :=
  ⟨(nowait_satisfiable nowaitState 9 (-1) (by decide)).1 (Elem.val 4) [] (by decide),
   (nowait_satisfiable nowaitState 9 (-1) (by decide)).2 (by decide)⟩

end GoQueue
